import Mathlib

/-!
Verification of the valuation-and-scenario engine of the portfolio impact
analyzer: a shallow embedding in Lean 4 of the Black-Scholes pricer
(src/valuation/black_scholes.py), the beta-weighted IV shift model
(src/scenario/iv_model.py), the position data model
(src/data_collection/position.py) and the portfolio scenario aggregator
(src/valuation/portfolio_aggregation.py), together with theorems settling
the specification claims about them.

Real-valued program quantities are modelled as real numbers; Python dicts
are modelled as association lists (scenario parameter maps) or as
functions to Option (the underlying-price map built inside run_scenario);
Python None is modelled with Option.  Methods that mutate nothing but
iterate over the caller's position list are embedded in a state-threading
style: each per-position loop step returns the position object as it
stands after the step, so that the absence of write-backs is a provable
property rather than an artifact of the embedding.
-/

namespace PortfolioImpact

noncomputable section

/-- Data model of src/data_collection/position.py (class Position).
A position snapshot: stock or option.  Option-specific Optional fields
that the engine dereferences unconditionally (underlying, strike,
option_type) are modelled as present, with stock defaults matching the
dataclass defaults where one exists.  `dte` models the run-time result of
days_to_expiration(): None when not an option or no expiration is set,
otherwise the (possibly negative) whole-day difference to expiration. -/
structure Position where
  symbol : String
  quantity : ℝ
  entry_price : ℝ
  current_price : ℝ
  is_option : Bool := false
  underlying : String := ""
  strike : ℝ := 0
  option_type : String := ""
  contract_multiplier : ℝ := 100
  delta : Option ℝ := none
  gamma : Option ℝ := none
  theta : Option ℝ := none
  vega : Option ℝ := none
  rho : Option ℝ := none
  implied_volatility : Option ℝ := none
  dte : Option ℤ := none

/-- Position.position_value, as established by __post_init__ /
update_position_value: current_price * quantity * multiplier for options,
current_price * quantity for stocks. -/
def Position.position_value (p : Position) : ℝ :=
  if p.is_option then p.current_price * p.quantity * p.contract_multiplier
  else p.current_price * p.quantity

/-- Position.days_to_expiration(): the engine reads it through this
accessor; `none` models Python None. -/
def Position.days_to_expiration (p : Position) : Option ℤ :=
  if p.is_option then p.dte else none

/-- A scenario parameter dictionary as consumed by run_scenario and
calculate_position_iv.  Each optional key of the Python dict is an
Option field; the two nested dicts (moneyness-category and DTE-bucket
multiplier maps) are association lists keyed by strings. -/
structure Scenario where
  name : Option String := none
  spot_change : Option ℝ := none
  days_pass : Option ℤ := none
  iv_change : Option ℝ := none
  iv_multipliers : Option (List (String × ℝ)) := none
  dte_scaling : Option (List (String × ℝ)) := none

/-- IVModel.get_moneyness_beta (src/scenario/iv_model.py lines 14-33). -/
def get_moneyness_beta (moneyness : ℝ) : ℝ :=
  if moneyness < 0.95 then 1.3
  else if moneyness < 0.98 then 1.2
  else if moneyness < 1.02 then 1.0
  else if moneyness < 1.05 then 0.9
  else 0.8

/-- IVModel.get_time_beta (src/scenario/iv_model.py lines 36-53). -/
def get_time_beta (dte : ℤ) : ℝ :=
  if dte ≤ 7 then 1.5
  else if dte ≤ 30 then 1.0
  else if dte ≤ 90 then 0.7
  else 0.5

/-- IVModel.calculate_iv_shift (src/scenario/iv_model.py lines 56-87).
The option_type argument of the source is accepted and, as in the
source, unused. -/
def calculate_iv_shift (base_iv moneyness : ℝ) (dte : ℤ)
    (scenario_multiplier : ℝ) (_option_category : String := "ATM") : ℝ :=
  let moneyness_beta := get_moneyness_beta moneyness
  let time_beta := get_time_beta dte
  let iv_change := scenario_multiplier * moneyness_beta * time_beta
  let new_iv := base_iv * (1 + iv_change)
  max 0.01 (min 3.0 new_iv)

/-- IVModel.calculate_scenario_iv (src/scenario/iv_model.py lines
90-124): flat IV change, optionally overridden per DTE bucket; note the
source applies no beta weighting on this path. -/
def calculate_scenario_iv (base_iv : ℝ) (dte : ℤ) (s : Scenario) : ℝ :=
  let iv_change_base := s.iv_change.getD 0.0
  let ds := s.dte_scaling.getD []
  let iv_change :=
    if ds.isEmpty then iv_change_base
    else if dte ≤ 7 then (ds.lookup "0-7").getD iv_change_base
    else if dte ≤ 30 then (ds.lookup "8-30").getD iv_change_base
    else if dte ≤ 90 then (ds.lookup "31-90").getD iv_change_base
    else (ds.lookup "90+").getD iv_change_base
  let new_iv := base_iv * (1 + iv_change)
  max 0.01 (min 3.0 new_iv)

/-- The moneyness-category classification inlined in
IVShiftCalculator.calculate_position_iv (src/scenario/iv_model.py lines
165-177), factored out verbatim: thresholds 0.95 and 1.05 on the
direction-adjusted moneyness, refined by the call/put flag. -/
def iv_category (option_type : String) (moneyness : ℝ) : String :=
  if moneyness < 0.95 then
    if option_type = "P" then "OTM_PUT" else "OTM_CALL"
  else if moneyness < 1.05 then "ATM"
  else
    if option_type = "P" then "ITM_PUT" else "ITM_CALL"

/-- IVShiftCalculator.calculate_position_iv (src/scenario/iv_model.py
lines 133-196): default base IV 0.30 when the position has no IV datum,
default DTE 30 when days_to_expiration() is None, direction-adjusted
moneyness at the shocked underlying price, category lookup in
iv_multipliers (with fallback to its "default" entry), and otherwise the
flat calculate_scenario_iv path. -/
def calculate_position_iv (p : Position) (s : Scenario)
    (underlying_price : ℝ) : ℝ :=
  if p.is_option = false then 0.0
  else
    let base_iv := p.implied_volatility.getD 0.30
    let dte := (p.days_to_expiration).getD 30
    let moneyness :=
      if p.option_type = "C" then underlying_price / p.strike
      else p.strike / underlying_price
    let option_category := iv_category p.option_type moneyness
    let ivm := s.iv_multipliers.getD []
    match ivm.lookup option_category with
    | some m => calculate_iv_shift base_iv moneyness dte m option_category
    | none =>
      match ivm.lookup "default" with
      | some m => calculate_iv_shift base_iv moneyness dte m option_category
      | none => calculate_scenario_iv base_iv dte s

/-- The standard normal cumulative distribution function used by the
pricer (scipy.stats.norm.cdf): the Gaussian density integrated over the
left-infinite interval. -/
def normCdf (x : ℝ) : ℝ :=
  (Real.sqrt (2 * Real.pi))⁻¹ * ∫ t in Set.Iic x, Real.exp (-(t ^ 2) / 2)

/-- BlackScholesCalculator.calculate_option_price
(src/valuation/black_scholes.py lines 23-63), with the constructor's
risk_free_rate as first argument: intrinsic value at or past expiry,
non-positive volatility replaced by 0.30, closed-form price floored at
zero otherwise. -/
def calculate_option_price (risk_free_rate : ℝ) (spot strike
    time_to_expiry volatility : ℝ) (option_type : String := "C")
    (dividend_yield : ℝ := 0.0) : ℝ :=
  if time_to_expiry ≤ 0 then
    if option_type = "C" then max 0 (spot - strike) else max 0 (strike - spot)
  else
    let vol := if volatility ≤ 0 then 0.30 else volatility
    let d1 := (Real.log (spot / strike) +
        (risk_free_rate - dividend_yield + 0.5 * vol ^ 2) * time_to_expiry) /
      (vol * Real.sqrt time_to_expiry)
    let d2 := d1 - vol * Real.sqrt time_to_expiry
    let price :=
      if option_type = "C" then
        spot * Real.exp (-dividend_yield * time_to_expiry) * normCdf d1 -
          strike * Real.exp (-risk_free_rate * time_to_expiry) * normCdf d2
      else
        strike * Real.exp (-risk_free_rate * time_to_expiry) * normCdf (-d2) -
          spot * Real.exp (-dividend_yield * time_to_expiry) * normCdf (-d1)
    max 0 price

/-- The elementwise computation performed by the vectorized
BlackScholesCalculator.calculate_batch (src/valuation/black_scholes.py
lines 135-184) at one index: expiry clamped below by 1e-10, volatility
floored at 0.01, call/put selected by the type entry, expired entries
replaced by intrinsic value, and the result floored at zero. -/
def batch_entry (risk_free_rate : ℝ) (spot strike time_to_expiry
    volatility : ℝ) (option_type : String) (dividend_yield : ℝ) : ℝ :=
  let t := max time_to_expiry 1e-10
  let vol := max volatility 0.01
  let sqrt_t := Real.sqrt t
  let d1 := (Real.log (spot / strike) +
      (risk_free_rate - dividend_yield + 0.5 * vol ^ 2) * t) / (vol * sqrt_t)
  let d2 := d1 - vol * sqrt_t
  let call_price := spot * Real.exp (-dividend_yield * t) * normCdf d1 -
    strike * Real.exp (-risk_free_rate * t) * normCdf d2
  let put_price := strike * Real.exp (-risk_free_rate * t) * normCdf (-d2) -
    spot * Real.exp (-dividend_yield * t) * normCdf (-d1)
  let price := if option_type = "C" then call_price else put_price
  let intrinsic :=
    if option_type = "C" then max 0 (spot - strike) else max 0 (strike - spot)
  let chosen := if time_to_expiry ≤ 0 then intrinsic else price
  max 0 chosen

/-- BlackScholesCalculator.calculate_batch: the numpy array operations
are elementwise over equal-length arrays, so the batch is the list of
per-index batch_entry results. -/
def calculate_batch (risk_free_rate : ℝ) : List ℝ → List ℝ → List ℝ →
    List ℝ → List String → List ℝ → List ℝ
  | s :: ss, k :: ks, t :: ts, v :: vs, ty :: tys, q :: qs =>
    batch_entry risk_free_rate s k t v ty q ::
      calculate_batch risk_free_rate ss ks ts vs tys qs
  | _, _, _, _, _, _ => []

/-- Modelled from the claim text of the batch/scalar equivalence: the
result of repeated scalar calculate_option_price calls on the same
parameter arrays, used as the comparison point for the refinement
claim. -/
def repeated_scalar_price (risk_free_rate : ℝ) : List ℝ → List ℝ →
    List ℝ → List ℝ → List String → List ℝ → List ℝ
  | s :: ss, k :: ks, t :: ts, v :: vs, ty :: tys, q :: qs =>
    calculate_option_price risk_free_rate s k t v ty q ::
      repeated_scalar_price risk_free_rate ss ks ts vs tys qs
  | _, _, _, _, _, _ => []

/-- The metrics dictionary returned by
PortfolioAggregator.calculate_current_portfolio_value
(src/valuation/portfolio_aggregation.py lines 28-79). -/
structure PortfolioMetrics where
  total_value : ℝ
  stock_value : ℝ
  option_value : ℝ
  delta : ℝ
  gamma : ℝ
  theta : ℝ
  vega : ℝ
  rho : ℝ

/-- The zero accumulator the metrics loop starts from. -/
def emptyMetrics : PortfolioMetrics := ⟨0, 0, 0, 0, 0, 0, 0, 0⟩

/-- One iteration of the calculate_current_portfolio_value loop: the
contribution of a single position to the accumulated metrics, paired
with the position object as the iteration leaves it (the body only reads
position attributes and assigns none). -/
def metricsContribution (p : Position) : PortfolioMetrics × Position :=
  let v := p.position_value
  if p.is_option then
    ({ total_value := v
       stock_value := 0
       option_value := v
       delta := ((p.delta.map
         (· * p.quantity * p.contract_multiplier)).getD 0)
       gamma := ((p.gamma.map
         (· * p.quantity * p.contract_multiplier)).getD 0)
       theta := ((p.theta.map
         (· * p.quantity * p.contract_multiplier)).getD 0)
       vega := ((p.vega.map
         (· * p.quantity * p.contract_multiplier)).getD 0)
       rho := ((p.rho.map
         (· * p.quantity * p.contract_multiplier)).getD 0) }, p)
  else
    ({ total_value := v
       stock_value := v
       option_value := 0
       delta := p.quantity
       gamma := 0
       theta := 0
       vega := 0
       rho := 0 }, p)

/-- Pointwise sum of two metrics accumulators. -/
def addMetrics (a b : PortfolioMetrics) : PortfolioMetrics :=
  ⟨a.total_value + b.total_value, a.stock_value + b.stock_value,
   a.option_value + b.option_value, a.delta + b.delta, a.gamma + b.gamma,
   a.theta + b.theta, a.vega + b.vega, a.rho + b.rho⟩

/-- PortfolioAggregator.calculate_current_portfolio_value, threading the
visited positions through: the second component lists the position
objects exactly as the loop hands them back. -/
def calculate_current_portfolio_valueSt :
    List Position → PortfolioMetrics × List Position
  | [] => (emptyMetrics, [])
  | p :: ps =>
    let (c, p1) := metricsContribution p
    let (m, ps1) := calculate_current_portfolio_valueSt ps
    (addMetrics c m, p1 :: ps1)

/-- PortfolioAggregator.calculate_current_portfolio_value, value part. -/
def calculate_current_portfolio_value (ps : List Position) :
    PortfolioMetrics :=
  (calculate_current_portfolio_valueSt ps).1

/-- The underlying_prices dict built by the first loop of run_scenario,
modelled as a partial map from symbol to shocked price. -/
def PriceMap := String → Option ℝ

/-- Python dict assignment d[k] = v. -/
def PriceMap.set (d : PriceMap) (k : String) (v : ℝ) : PriceMap :=
  fun x => if x = k then some v else d x

/-- One iteration of the underlying-price loop of run_scenario
(src/valuation/portfolio_aggregation.py lines 109-121): an option sets
its underlying only when the key is absent, using the position's own
current_price as the underlying price estimate; a stock always
overwrites its symbol's entry; the position itself is only read. -/
def underlyingStep (spot_change : ℝ) (d : PriceMap) (p : Position) :
    PriceMap × Position :=
  if p.is_option then
    if (d p.underlying).isNone then
      (d.set p.underlying (p.current_price * (1 + spot_change)), p)
    else (d, p)
  else
    (d.set p.symbol (p.current_price * (1 + spot_change)), p)

/-- The underlying-price loop of run_scenario, state-threaded. -/
def buildUnderlyingSt (spot_change : ℝ) :
    List Position → PriceMap → PriceMap × List Position
  | [], d => (d, [])
  | p :: ps, d =>
    let (d1, p1) := underlyingStep spot_change d p
    let (dF, ps1) := buildUnderlyingSt spot_change ps d1
    (dF, p1 :: ps1)

/-- The underlying_prices map run_scenario computes for a position list
under a scenario. -/
def underlying_prices (s : Scenario) (ps : List Position) : PriceMap :=
  (buildUnderlyingSt (s.spot_change.getD 0.0) ps (fun _ => none)).1

/-- PortfolioAggregator._calculate_stock_scenario_value
(src/valuation/portfolio_aggregation.py lines 174-180). -/
def calculate_stock_scenario_value (p : Position) (s : Scenario)
    (new_price : Option ℝ) : ℝ :=
  let np := new_price.getD (p.current_price * (1 + s.spot_change.getD 0.0))
  np * p.quantity

/-- PortfolioAggregator._calculate_option_scenario_value
(src/valuation/portfolio_aggregation.py lines 182-214): resolve the
scenario IV, advance time by days_pass with DTE floored at zero
(defaulting a missing DTE to 30), reprice through the Black-Scholes
calculator at the shocked underlying price, and scale by quantity and
multiplier. -/
def calculate_option_scenario_value (risk_free_rate : ℝ) (p : Position)
    (s : Scenario) (new_underlying_price : Option ℝ) : ℝ :=
  let u := new_underlying_price.getD
    (p.current_price * (1 + s.spot_change.getD 0.0))
  let new_iv := calculate_position_iv p s u
  let days_pass := s.days_pass.getD 0
  let dte := (p.days_to_expiration).getD 30
  let new_dte := max 0 (dte - days_pass)
  let time_to_expiry := (new_dte : ℝ) / 365.0
  let new_price := calculate_option_price risk_free_rate u p.strike
    time_to_expiry new_iv p.option_type 0.0
  new_price * p.quantity * p.contract_multiplier

/-- A per-position entry of the position_results list built by
run_scenario (src/valuation/portfolio_aggregation.py lines 138-145). -/
structure PositionResult where
  symbol : String
  type : String
  current_value : ℝ
  scenario_value : ℝ
  pnl : ℝ
  pnl_percent : ℝ

/-- The dictionary appended to position_results for a successfully
repriced position with scenario value v. -/
def mkPositionResult (p : Position) (v : ℝ) : PositionResult :=
  { symbol := p.symbol
    type := if p.is_option then "OPTION" else "STOCK"
    current_value := p.position_value
    scenario_value := v
    pnl := v - p.position_value
    pnl_percent := if p.position_value ≠ 0 then
      (v - p.position_value) / p.position_value * 100 else 0 }

/-- The valuation loop of run_scenario
(src/valuation/portfolio_aggregation.py lines 124-151), parameterized by
the possibly-raising per-position repricer (the try body): a success
contributes its scenario value and appends a result entry; an exception
is caught, the position contributes its unchanged position_value to the
running total and no entry is appended.  The third component threads the
position objects through the loop. -/
def scenarioLoopSt (reprice : Position → Except Unit ℝ) :
    List Position → ℝ × List PositionResult × List Position
  | [] => (0, [], [])
  | p :: ps =>
    let (tv, res, ps1) := scenarioLoopSt reprice ps
    match reprice p with
    | Except.ok v => (v + tv, mkPositionResult p v :: res, p :: ps1)
    | Except.error _ => (p.position_value + tv, res, p :: ps1)

/-- Ordering of result entries by P&L, the key of the final sorted() call
of run_scenario. -/
def pnlLe (a b : PositionResult) : Prop := a.pnl ≤ b.pnl

instance : DecidableRel pnlLe :=
  fun a b => inferInstanceAs (Decidable (a.pnl ≤ b.pnl))

instance : IsTotal PositionResult pnlLe := ⟨fun a b => le_total a.pnl b.pnl⟩

instance : IsTrans PositionResult pnlLe :=
  ⟨fun _ _ _ h1 h2 => le_trans h1 h2⟩

/-- The scenario result dictionary returned by run_scenario. -/
structure ScenarioResult where
  scenario_name : String
  current_portfolio_value : ℝ
  scenario_portfolio_value : ℝ
  portfolio_pnl : ℝ
  portfolio_pnl_percent : ℝ
  worst_position : Option PositionResult
  best_position : Option PositionResult
  position_results : List PositionResult
  current_metrics : PortfolioMetrics

/-- PortfolioAggregator.run_scenario
(src/valuation/portfolio_aggregation.py lines 81-172), state-threaded
and parameterized by the per-position repricer so that the injected
repricing failure of the fail-open tests is expressible.  Python's
sorted() is stable; the final sort by P&L is modelled by the stable
List.insertionSort, whose first and last elements run_scenario takes as
worst and best position. -/
def run_scenarioWithSt (_risk_free_rate : ℝ)
    (reprice : PriceMap → Position → Except Unit ℝ)
    (ps : List Position) (s : Scenario) : ScenarioResult × List Position :=
  let scenario_name := s.name.getD "Unknown"
  let (current_metrics, ps1) := calculate_current_portfolio_valueSt ps
  let current_value := current_metrics.total_value
  let (up, ps2) := buildUnderlyingSt (s.spot_change.getD 0.0) ps1
    (fun _ => none)
  let (new_total_value, position_results, ps3) :=
    scenarioLoopSt (reprice up) ps2
  let portfolio_pnl := new_total_value - current_value
  let portfolio_pnl_percent := if current_value ≠ 0 then
    portfolio_pnl / current_value * 100 else 0
  let sorted_results := List.insertionSort pnlLe position_results
  ({ scenario_name := scenario_name
     current_portfolio_value := current_value
     scenario_portfolio_value := new_total_value
     portfolio_pnl := portfolio_pnl
     portfolio_pnl_percent := portfolio_pnl_percent
     worst_position := sorted_results.head?
     best_position := sorted_results.getLast?
     position_results := position_results
     current_metrics := current_metrics }, ps3)

/-- The actual (non-raising) repricer of run_scenario: options through
_calculate_option_scenario_value with the underlying_prices entry for
their underlying, stocks through _calculate_stock_scenario_value with
the entry for their symbol. -/
def actualReprice (risk_free_rate : ℝ) (s : Scenario) (up : PriceMap)
    (p : Position) : Except Unit ℝ :=
  Except.ok <|
    if p.is_option then
      calculate_option_scenario_value risk_free_rate p s (up p.underlying)
    else
      calculate_stock_scenario_value p s (up p.symbol)

/-- run_scenario with its actual repricer, state-threaded. -/
def run_scenarioSt (risk_free_rate : ℝ) (ps : List Position)
    (s : Scenario) : ScenarioResult × List Position :=
  run_scenarioWithSt risk_free_rate (actualReprice risk_free_rate s) ps s

/-- PortfolioAggregator.run_scenario, value part. -/
def run_scenario (risk_free_rate : ℝ) (ps : List Position)
    (s : Scenario) : ScenarioResult :=
  (run_scenarioSt risk_free_rate ps s).1

/-- PortfolioAggregator.run_multiple_scenarios
(src/valuation/portfolio_aggregation.py lines 216-239), state-threaded:
each catalog entry is evaluated by run_scenario (whose embedding is
total, so the per-scenario exception handler's fallback path is not
taken) and recorded under its name in insertion order. -/
def run_multiple_scenariosSt (risk_free_rate : ℝ) :
    List Position → List (String × Scenario) →
    List (String × ScenarioResult) × List Position
  | ps, [] => ([], ps)
  | ps, (n, s) :: rest =>
    let (res, ps1) := run_scenarioSt risk_free_rate ps s
    let (acc, ps2) := run_multiple_scenariosSt risk_free_rate ps1 rest
    ((n, res) :: acc, ps2)

/-- PortfolioAggregator.run_multiple_scenarios, value part. -/
def run_multiple_scenarios (risk_free_rate : ℝ) (ps : List Position)
    (scs : List (String × Scenario)) : List (String × ScenarioResult) :=
  (run_multiple_scenariosSt risk_free_rate ps scs).1

/-- Python int() truncation toward zero on a real argument. -/
def pyInt (x : ℝ) : ℤ := if 0 ≤ x then ⌊x⌋ else ⌈x⌉

/-- Python list indexing l[i]: negative indices count from the end; an
out-of-range index raises IndexError, modelled as none. -/
def pyGet (l : List ℝ) (i : ℤ) : Option ℝ :=
  let j := if i < 0 then i + l.length else i
  if 0 ≤ j ∧ j < l.length then l.get? j.toNat else none

/-- Ascending sort of the P&L list, as Python sorted() produces. -/
def pySorted (l : List ℝ) : List ℝ :=
  List.insertionSort (fun a b : ℝ => a ≤ b) l

/-- PortfolioAggregator.calculate_var
(src/valuation/portfolio_aggregation.py lines 241-262): 0 for an empty
result set; otherwise the sorted P&L entry at int((1-confidence)*N) when
that index is below N, else the first (smallest) entry.  A negative
index large enough to escape Python's negative indexing raises, hence
the Option result. -/
def calculate_var (scenario_results : List (String × ScenarioResult))
    (confidence : ℝ) : Option ℝ :=
  let pnls := scenario_results.map (fun r => r.2.portfolio_pnl)
  if pnls.isEmpty then some 0.0
  else
    let pnls_sorted := pySorted pnls
    let index := pyInt ((1 - confidence) * (pnls.length : ℝ))
    if index < (pnls_sorted.length : ℤ) then pyGet pnls_sorted index
    else pnls_sorted.head?

/-- The single-leg position of the concrete scenario claim: put on XYZ,
strike 100, underlying price 100 (the position's current_price, which
run_scenario uses as the underlying price estimate), IV 0.30, DTE 30,
quantity 1, multiplier 100. -/
def c1Position : Position :=
  { symbol := "XYZ"
    quantity := 1
    entry_price := 100
    current_price := 100
    is_option := true
    underlying := "XYZ"
    strike := 100
    option_type := "P"
    contract_multiplier := 100
    implied_volatility := some 0.30
    dte := some 30 }

/-- The concrete scenario of the claim: spot_change -0.05 and the
iv_multipliers map with a single ATM entry 0.35. -/
def c1Scenario : Scenario :=
  { spot_change := some (-0.05)
    iv_multipliers := some [("ATM", 0.35)] }

/-- A put position with DTE 5 used to exhibit the missing beta weighting
of the flat IV path: time beta at 5 days is 1.5, so the claimed
beta-weighted formula and the code's flat formula disagree. -/
def c5Position : Position :=
  { symbol := "XYZ"
    quantity := 1
    entry_price := 100
    current_price := 100
    is_option := true
    underlying := "XYZ"
    strike := 100
    option_type := "P"
    contract_multiplier := 100
    implied_volatility := some 0.30
    dte := some 5 }

/-- A scenario carrying only a uniform iv_change of 0.5. -/
def c5Scenario : Scenario := { iv_change := some 0.5 }

/-- An option position with missing implied volatility and missing
days-to-expiration data. -/
def c10Position : Position :=
  { symbol := "XYZ"
    quantity := 1
    entry_price := 100
    current_price := 100
    is_option := true
    underlying := "XYZ"
    strike := 100
    option_type := "P"
    contract_multiplier := 100
    implied_volatility := none
    dte := none }

/-- The all-zero scenario: spot_change 0, days_pass 0, no volatility
transform. -/
def zeroScenario : Scenario :=
  { name := some "zero"
    spot_change := some 0
    days_pass := some 0 }

/-- An expired put held at a premium of 2: under the zero scenario the
engine reprices it at intrinsic value computed against its own premium
used as the spot, so its value jumps from 200 to 9800. -/
def c2Option : Position :=
  { symbol := "XYZP"
    quantity := 1
    entry_price := 2
    current_price := 2
    is_option := true
    underlying := "XYZ"
    strike := 100
    option_type := "P"
    contract_multiplier := 100
    implied_volatility := some 0.30
    dte := some 0 }

/-- A plain stock position. -/
def c2Stock : Position :=
  { symbol := "AAA"
    quantity := 1
    entry_price := 10
    current_price := 10 }

/-- run_scenario with an injectable per-position repricer, value part:
the embedding of the fail-open test harness that monkey-patches the
repricing of selected positions to raise. -/
def run_scenarioWith (risk_free_rate : ℝ)
    (reprice : PriceMap → Position → Except Unit ℝ)
    (ps : List Position) (s : Scenario) : ScenarioResult :=
  (run_scenarioWithSt risk_free_rate reprice ps s).1

/-- A repricer that raises for the position with the given symbol and
behaves as the actual repricer elsewhere: the injected single-position
repricing exception of the fail-open property. -/
def failingOn (sym : String) (risk_free_rate : ℝ) (s : Scenario)
    (up : PriceMap) (p : Position) : Except Unit ℝ :=
  if p.symbol = sym then Except.error ()
  else actualReprice risk_free_rate s up p

/-- Three stock positions used by the fail-open counterexample. -/
def c3A : Position :=
  { symbol := "A", quantity := 1, entry_price := 10, current_price := 10 }

/-- Second of the three stock positions; its repricing is failed. -/
def c3B : Position :=
  { symbol := "B", quantity := 1, entry_price := 20, current_price := 20 }

/-- Third of the three stock positions. -/
def c3C : Position :=
  { symbol := "C", quantity := 1, entry_price := 30, current_price := 30 }

/-- An option on XYZ listed before any XYZ stock position, held at
premium 5, expired (DTE 0) so its repricing is exact intrinsic value. -/
def c9Option : Position :=
  { symbol := "XYZP"
    quantity := 1
    entry_price := 5
    current_price := 5
    is_option := true
    underlying := "XYZ"
    strike := 120
    option_type := "P"
    contract_multiplier := 100
    implied_volatility := some 0.30
    dte := some 0 }

/-- An XYZ stock position listed after the option. -/
def c9Stock : Position :=
  { symbol := "XYZ"
    quantity := 1
    entry_price := 100
    current_price := 100 }

/-- The last stock position (in input order) whose symbol is u: the
writer whose price survives in the underlying_prices dict, since stocks
overwrite unconditionally. -/
def lastStockOn (u : String) (ps : List Position) : Option Position :=
  (ps.filter (fun p => !p.is_option && p.symbol == u)).getLast?

/-- The first option position (in input order) whose underlying is u:
its premium seeds the underlying_prices dict when no stock with that
symbol occurs anywhere in the list. -/
def firstOptionOn (u : String) (ps : List Position) : Option Position :=
  (ps.filter (fun p => p.is_option && p.underlying == u)).head?

/-- The first entry of minimal P&L in a result list: what a stable
ascending sort puts first. -/
def firstMinByPnl : List PositionResult → Option PositionResult
  | [] => none
  | a :: l =>
    match firstMinByPnl l with
    | none => some a
    | some b => if pnlLe a b then some a else some b

/-- The last entry of maximal P&L in a result list: what a stable
ascending sort puts last. -/
def lastMaxByPnl : List PositionResult → Option PositionResult
  | [] => none
  | a :: l =>
    match lastMaxByPnl l with
    | none => some a
    | some b => if b.pnl < a.pnl then some a else some b

/-- Two stock positions with identical prices, so their scenario P&L
values tie. -/
def c7A : Position :=
  { symbol := "A", quantity := 1, entry_price := 10, current_price := 10 }

/-- Second of the two tying stock positions. -/
def c7B : Position :=
  { symbol := "B", quantity := 1, entry_price := 10, current_price := 10 }

/-- A scenario result record carrying a given portfolio P&L, as consumed
by calculate_var. -/
def mkPnlResult (x : ℝ) : ScenarioResult :=
  { scenario_name := "s"
    current_portfolio_value := 0
    scenario_portfolio_value := x
    portfolio_pnl := x
    portfolio_pnl_percent := 0
    worst_position := none
    best_position := none
    position_results := []
    current_metrics := emptyMetrics }

/-- Two scenario results with portfolio P&L 1 and 2. -/
def c6Results : List (String × ScenarioResult) :=
  [("a", mkPnlResult 1), ("b", mkPnlResult 2)]

end

/-- The metrics loop body returns the visited position unchanged. -/
theorem metricsContribution_eq (p : Position) :
    metricsContribution p = ((metricsContribution p).1, p) := by
  rw [metricsContribution]
  by_cases h : p.is_option <;> simp [h]

/-- The metrics loop threads every position back unchanged. -/
theorem calcMetricsSt_eq (ps : List Position) :
    calculate_current_portfolio_valueSt ps =
      (calculate_current_portfolio_value ps, ps) := by
  rw [calculate_current_portfolio_value]
  induction ps with
  | nil => rfl
  | cons p t ih =>
    rw [calculate_current_portfolio_valueSt, metricsContribution_eq p, ih]

/-- The underlying-price loop body returns the visited position
unchanged. -/
theorem underlyingStep_eq (sc : ℝ) (d : PriceMap) (p : Position) :
    underlyingStep sc d p = ((underlyingStep sc d p).1, p) := by
  rw [underlyingStep]
  by_cases h : p.is_option <;> by_cases h2 : (d p.underlying).isNone <;>
    simp [h, h2]

/-- The underlying-price loop threads every position back unchanged. -/
theorem buildUnderlyingSt_eq (sc : ℝ) (ps : List Position) (d : PriceMap) :
    buildUnderlyingSt sc ps d = ((buildUnderlyingSt sc ps d).1, ps) := by
  induction ps generalizing d with
  | nil => rfl
  | cons p t ih =>
    conv_lhs => rw [buildUnderlyingSt, underlyingStep_eq sc d p]
    conv_rhs => rw [buildUnderlyingSt, underlyingStep_eq sc d p]
    dsimp only
    rw [ih ((underlyingStep sc d p).1)]

/-- The valuation loop threads every position back unchanged. -/
theorem scenarioLoopSt_snd (f : Position → Except Unit ℝ)
    (ps : List Position) : (scenarioLoopSt f ps).2.2 = ps := by
  induction ps with
  | nil => rfl
  | cons p t ih =>
    rw [scenarioLoopSt]
    cases f p <;> simp [ih]

/-- Full characterization of the valuation loop: the running total adds
the repriced value of each success and the unchanged position_value of
each failure; the result entries are exactly the successes in input
order; the positions are handed back unchanged. -/
theorem scenarioLoopSt_eq (f : Position → Except Unit ℝ)
    (ps : List Position) :
    scenarioLoopSt f ps =
      ((ps.map (fun p => match f p with
          | Except.ok v => v
          | Except.error _ => p.position_value)).sum,
       ps.filterMap (fun p => match f p with
          | Except.ok v => some (mkPositionResult p v)
          | Except.error _ => none),
       ps) := by
  induction ps with
  | nil => simp [scenarioLoopSt]
  | cons p t ih =>
    rw [scenarioLoopSt, ih]
    cases h : f p <;> simp [h, List.filterMap_cons]

/-- The underlying_prices map is the first component of the
underlying-price loop. -/
theorem underlying_prices_def (s : Scenario) (ps : List Position) :
    (buildUnderlyingSt (s.spot_change.getD 0.0) ps (fun _ => none)).1 =
      underlying_prices s ps := rfl

/-- run_scenarioWithSt with its state plumbing resolved: the positions
come back unchanged, the scenario total adds the repriced value of each
success and the unchanged position_value of each failure, and the result
entries are the successes in input order. -/
theorem run_scenarioWithSt_eq (r : ℝ)
    (reprice : PriceMap → Position → Except Unit ℝ)
    (ps : List Position) (s : Scenario) :
    run_scenarioWithSt r reprice ps s =
      (let up := underlying_prices s ps
       let cv := (calculate_current_portfolio_value ps).total_value
       let tot := (ps.map (fun p => match reprice up p with
          | Except.ok v => v
          | Except.error _ => p.position_value)).sum
       let entries := ps.filterMap (fun p => match reprice up p with
          | Except.ok v => some (mkPositionResult p v)
          | Except.error _ => none)
       ({ scenario_name := s.name.getD "Unknown"
          current_portfolio_value := cv
          scenario_portfolio_value := tot
          portfolio_pnl := tot - cv
          portfolio_pnl_percent :=
            if cv ≠ 0 then (tot - cv) / cv * 100 else 0
          worst_position := (List.insertionSort pnlLe entries).head?
          best_position := (List.insertionSort pnlLe entries).getLast?
          position_results := entries
          current_metrics := calculate_current_portfolio_value ps }, ps)) := by
  rw [run_scenarioWithSt, calcMetricsSt_eq]
  dsimp only
  rw [buildUnderlyingSt_eq (s.spot_change.getD 0.0) ps (fun _ => none),
    underlying_prices_def]
  dsimp only
  rw [scenarioLoopSt_eq]

/-- getLast? of a cons, expressed through getD. -/
theorem getLast?_cons_getD {α : Type} (a : α) (l : List α) :
    (a :: l).getLast? = some ((l.getLast?).getD a) := by
  cases l with
  | nil => rfl
  | cons b t =>
    rw [List.getLast?_cons_cons,
      List.getLast?_eq_getLast_of_ne_nil (List.cons_ne_nil b t)]
    rfl

/-- Characterization of the underlying_prices dict built by
run_scenario: a symbol maps to the shocked current_price of the last
stock position bearing it when one exists (stocks overwrite
unconditionally); otherwise to whatever the initial dict holds;
otherwise to the shocked premium of the first option position whose
underlying bears it (options write only when the key is absent). -/
theorem buildUnderlying_lookup (sc : ℝ) (ps : List Position) (d : PriceMap)
    (u : String) :
    (buildUnderlyingSt sc ps d).1 u =
      match lastStockOn u ps with
      | some q => some (q.current_price * (1 + sc))
      | none =>
        match d u with
        | some v => some v
        | none => (firstOptionOn u ps).map
            (fun q => q.current_price * (1 + sc)) := by
  induction ps generalizing d with
  | nil =>
    cases h : d u <;> simp [buildUnderlyingSt, lastStockOn, firstOptionOn, h]
  | cons p t ih =>
    conv_lhs => rw [buildUnderlyingSt, underlyingStep_eq sc d p]
    dsimp only
    rw [ih]
    by_cases hopt : p.is_option
    · by_cases hund : p.underlying = u
      · by_cases hd : d p.underlying = none
        · have hstep : (underlyingStep sc d p).1 =
              d.set p.underlying (p.current_price * (1 + sc)) := by
            simp [underlyingStep, hopt, hd]
          have hset : (d.set p.underlying (p.current_price * (1 + sc))) u =
              some (p.current_price * (1 + sc)) := by
            simp [PriceMap.set, hund]
          have hls : lastStockOn u (p :: t) = lastStockOn u t := by
            simp [lastStockOn, List.filter_cons, hopt]
          have hfo : firstOptionOn u (p :: t) = some p := by
            simp [firstOptionOn, List.filter_cons, hopt, hund]
          have hdu : d u = none := hund ▸ hd
          rw [hstep, hset, hls, hfo]
          cases h : lastStockOn u t <;> simp [h, hdu]
        · obtain ⟨w, hw⟩ := Option.ne_none_iff_exists'.mp hd
          have hstep : (underlyingStep sc d p).1 = d := by
            simp [underlyingStep, hopt, hw]
          have hls : lastStockOn u (p :: t) = lastStockOn u t := by
            simp [lastStockOn, List.filter_cons, hopt]
          have hfo : firstOptionOn u (p :: t) = some p := by
            simp [firstOptionOn, List.filter_cons, hopt, hund]
          have hdu : d u = some w := hund ▸ hw
          rw [hstep, hls, hfo]
          cases h : lastStockOn u t <;> simp [h, hdu]
      · have hls : lastStockOn u (p :: t) = lastStockOn u t := by
          simp [lastStockOn, List.filter_cons, hopt]
        have hfo : firstOptionOn u (p :: t) = firstOptionOn u t := by
          simp [firstOptionOn, List.filter_cons, hopt, hund]
        have hstep : (underlyingStep sc d p).1 u = d u := by
          by_cases hd : d p.underlying = none
          · have : ¬ (u = p.underlying) := fun h => hund h.symm
            simp [underlyingStep, hopt, hd, PriceMap.set, this]
          · obtain ⟨w, hw⟩ := Option.ne_none_iff_exists'.mp hd
            simp [underlyingStep, hopt, hw]
        rw [hls, hfo]
        cases h : lastStockOn u t <;> simp [h, hstep]
    · have hopt2 : p.is_option = false := by simpa using hopt
      have hstep : (underlyingStep sc d p).1 =
          d.set p.symbol (p.current_price * (1 + sc)) := by
        simp [underlyingStep, hopt2]
      by_cases hsym : p.symbol = u
      · have hls : lastStockOn u (p :: t) =
            some ((lastStockOn u t).getD p) := by
          rw [lastStockOn, List.filter_cons]
          simp only [hopt2, hsym, Bool.not_false, beq_self_eq_true,
            Bool.and_self, if_true]
          exact getLast?_cons_getD p _
        have hset : (d.set p.symbol (p.current_price * (1 + sc))) u =
            some (p.current_price * (1 + sc)) := by
          simp [PriceMap.set, hsym]
        rw [hstep, hset, hls]
        cases h : lastStockOn u t <;> simp [h]
      · have hls : lastStockOn u (p :: t) = lastStockOn u t := by
          simp [lastStockOn, List.filter_cons, hopt2, hsym]
        have hfo : firstOptionOn u (p :: t) = firstOptionOn u t := by
          simp [firstOptionOn, List.filter_cons, hopt2]
        have hset : (underlyingStep sc d p).1 u = d u := by
          have : ¬ (u = p.symbol) := fun h => hsym h.symm
          rw [hstep]
          simp [PriceMap.set, this]
        rw [hls, hfo]
        cases h : lastStockOn u t <;> simp [h, hset]

/-- What lastStockOn returns is a stock position from the list bearing
the looked-up symbol. -/
theorem lastStockOn_spec (u : String) (ps : List Position) (q : Position)
    (h : lastStockOn u ps = some q) :
    q ∈ ps ∧ q.is_option = false ∧ q.symbol = u := by
  rw [lastStockOn] at h
  have hne : ps.filter (fun p => !p.is_option && p.symbol == u) ≠ [] := by
    intro hnil
    rw [hnil] at h
    exact Option.noConfusion h
  rw [List.getLast?_eq_getLast_of_ne_nil hne] at h
  have hmem := List.getLast_mem hne
  rw [Option.some_inj.mp h] at hmem
  have := List.mem_filter.mp hmem
  refine ⟨this.1, ?_, ?_⟩
  · have h2 := this.2
    simp only [Bool.and_eq_true, Bool.not_eq_true', beq_iff_eq] at h2
    exact h2.1
  · have h2 := this.2
    simp only [Bool.and_eq_true, Bool.not_eq_true', beq_iff_eq] at h2
    exact h2.2

/-- A stock position in the list guarantees the dict holds an entry for
its symbol. -/
theorem lastStockOn_isSome_of_mem (p : Position) (ps : List Position)
    (hp : p ∈ ps) (hs : p.is_option = false) :
    ∃ q, lastStockOn p.symbol ps = some q := by
  have hmem : p ∈ ps.filter (fun q => !q.is_option && q.symbol == p.symbol) :=
    List.mem_filter.mpr ⟨hp, by simp [hs]⟩
  have hne : ps.filter (fun q => !q.is_option && q.symbol == p.symbol) ≠ [] :=
    List.ne_nil_of_mem hmem
  exact ⟨_, List.getLast?_eq_getLast_of_ne_nil (l := ps.filter _) hne⟩

/-- The total_value contribution of one position is its
position_value. -/
theorem metricsContribution_total (p : Position) :
    (metricsContribution p).1.total_value = p.position_value := by
  rw [metricsContribution]
  by_cases h : p.is_option <;> simp [h]

/-- The current portfolio total is the sum of position values. -/
theorem total_value_eq_sum (ps : List Position) :
    (calculate_current_portfolio_value ps).total_value =
      (ps.map Position.position_value).sum := by
  induction ps with
  | nil =>
    simp [calculate_current_portfolio_value,
      calculate_current_portfolio_valueSt, emptyMetrics]
  | cons p t ih =>
    rw [calculate_current_portfolio_value,
      calculate_current_portfolio_valueSt, metricsContribution_eq p,
      calcMetricsSt_eq t]
    dsimp only
    simp [addMetrics, metricsContribution_total p, ih]

/-- Under a zero-spot-change scenario over a stock-only list with
consistent per-symbol prices, the actual repricer returns each
position's unchanged value. -/
theorem actualReprice_stock_identity (r : ℝ) (ps : List Position)
    (s : Scenario) (p : Position) (hp : p ∈ ps)
    (hstock : ∀ q ∈ ps, q.is_option = false)
    (hcons : ∀ q ∈ ps, ∀ q2 ∈ ps, q.symbol = q2.symbol →
      q.current_price = q2.current_price)
    (hsc : s.spot_change.getD 0.0 = 0) :
    actualReprice r s (underlying_prices s ps) p =
      Except.ok p.position_value := by
  have hs0 : p.is_option = false := hstock p hp
  obtain ⟨q, hq⟩ := lastStockOn_isSome_of_mem p ps hp hs0
  obtain ⟨hqm, hqs, hqsym⟩ := lastStockOn_spec _ _ _ hq
  have hupv : underlying_prices s ps p.symbol =
      some (q.current_price * (1 + s.spot_change.getD 0.0)) := by
    rw [← underlying_prices_def, buildUnderlying_lookup, hq]
  have hqp : q.current_price = p.current_price :=
    hcons q hqm p hp (by rw [hqsym])
  rw [actualReprice, if_neg (by simp [hs0]), calculate_stock_scenario_value,
    hupv, hqp, hsc]
  simp [Position.position_value, hs0]

/-- C1 counterexample: at the claim's concrete input the engine does not
resolve the new implied volatility 0.30 * (1 + 0.35 * 1.2 * 1.0) =
0.426; the put's direction-adjusted moneyness at the shocked spot 95 is
100/95 which is at least 1.05, the category is ITM_PUT rather than ATM,
the iv_multipliers lookup misses, and the flat fallback returns 0.30. -/
theorem c1_new_iv_ne_claimed :
    calculate_position_iv c1Position c1Scenario 95 ≠
      0.30 * (1 + 0.35 * 1.2 * 1.0) := by
  have h1 : ¬ ((100 : ℝ) / 95 < 0.95) := by norm_num
  have h2 : ¬ ((100 : ℝ) / 95 < 1.05) := by norm_num
  have hb : (("ITM_PUT" : String) == "ATM") = false := by decide
  have hb2 : (("default" : String) == "ATM") = false := by decide
  simp [calculate_position_iv, c1Position, c1Scenario, iv_category,
    Position.days_to_expiration, calculate_scenario_iv, List.lookup,
    Option.getD, if_neg h1, if_neg h2, hb, hb2]
  norm_num

/-- C1 amended: under scenario spot_change -0.05 with iv_multipliers
mapping ATM to 0.35, the single put position (strike 100, price 100, IV
0.30, DTE 30) has its spot shocked to 95, its moneyness 100/95
classified ITM_PUT, and — the ATM lookup missing for that category — a
new implied volatility of exactly the unchanged 0.30. -/
theorem c1_scenario_resolution :
    underlying_prices c1Scenario [c1Position] "XYZ" = some 95 ∧
    iv_category c1Position.option_type (c1Position.strike / 95) =
      "ITM_PUT" ∧
    calculate_position_iv c1Position c1Scenario 95 = 0.30 := by
  have h1 : ¬ ((100 : ℝ) / 95 < 0.95) := by norm_num
  have h2 : ¬ ((100 : ℝ) / 95 < 1.05) := by norm_num
  have hb : (("ITM_PUT" : String) == "ATM") = false := by decide
  have hb2 : (("default" : String) == "ATM") = false := by decide
  refine ⟨?_, ?_, ?_⟩
  · simp [underlying_prices, c1Scenario, c1Position, buildUnderlyingSt,
      underlyingStep, PriceMap.set, Option.getD, Option.isNone]
    norm_num
  · simp [c1Position, iv_category, if_neg h1, if_neg h2]
  · simp [calculate_position_iv, c1Position, c1Scenario, iv_category,
      Position.days_to_expiration, calculate_scenario_iv, List.lookup,
      Option.getD, if_neg h1, if_neg h2, hb, hb2]
    norm_num

/-- C5 counterexample: with iv_multipliers and dte_scaling both absent
and iv_change 0.5, a put at moneyness 1 with DTE 5 resolves to
0.30 * (1 + 0.5) = 0.45, not to the claimed beta-weighted
clamp(0.30 * (1 + 0.5 * moneynessBeta(1) * timeBeta(5))) = 0.525: the
flat path of the source applies no beta factors. -/
theorem c5_flat_path_has_no_betas :
    calculate_position_iv c5Position c5Scenario 100 ≠
      max 0.01 (min 3.0 (0.30 *
        (1 + 0.5 * get_moneyness_beta (100 / 100) * get_time_beta 5))) := by
  have hm1 : ¬ ((100 : ℝ) / 100 < 0.95) := by norm_num
  have hm2 : ((100 : ℝ) / 100 < 1.05) := by norm_num
  have hm3 : ¬ ((100 : ℝ) / 100 < 0.98) := by norm_num
  have hm4 : ((100 : ℝ) / 100 < 1.02) := by norm_num
  simp [calculate_position_iv, c5Position, c5Scenario, iv_category,
    Position.days_to_expiration, calculate_scenario_iv, List.lookup,
    get_moneyness_beta, get_time_beta, Option.getD,
    if_neg hm1, if_pos hm2, if_neg hm3, if_pos hm4]
  norm_num

/-- C5 amended: for every option position under a scenario in which
neither iv_multipliers nor dte_scaling is present, the resolved new
implied volatility is the flat shift clamp(baseIV * (1 + iv_change),
0.01, 3.0), with iv_change taken as 0 if absent and baseIV defaulting to
0.30 — no beta weighting is applied on this path. -/
theorem c5_no_transform_is_flat_shift (p : Position) (s : Scenario)
    (u : ℝ) (hopt : p.is_option = true) (hm : s.iv_multipliers = none)
    (hd : s.dte_scaling = none) :
    calculate_position_iv p s u =
      max 0.01 (min 3.0
        ((p.implied_volatility.getD 0.30) * (1 + s.iv_change.getD 0.0))) := by
  simp [calculate_position_iv, calculate_scenario_iv, hopt, hm, hd,
    List.lookup]

/-- Witness for the amended C5 theorem at a concrete position and
scenario. -/
theorem c5_no_transform_is_flat_shift_witness :
    calculate_position_iv c5Position c5Scenario 100 =
      max 0.01 (min 3.0 ((c5Position.implied_volatility.getD 0.30) *
        (1 + c5Scenario.iv_change.getD 0.0))) :=
  c5_no_transform_is_flat_shift c5Position c5Scenario 100 rfl rfl rfl

/-- C10 confirmed: during scenario revaluation of an option position, a
missing implied volatility behaves exactly as the default base IV 0.30
and a missing days-to-expiration exactly as the default 30 days, both in
IV resolution and in repricing; the embedded revaluation is total, so
missing data cannot fail. -/
theorem c10_missing_data_defaults (p : Position) (s : Scenario)
    (risk_free_rate u : ℝ) (nu : Option ℝ) (hopt : p.is_option = true)
    (hiv : p.implied_volatility = none) (hdte : p.dte = none) :
    calculate_position_iv p s u =
      calculate_position_iv
        { p with implied_volatility := some 0.30, dte := some 30 } s u ∧
    calculate_option_scenario_value risk_free_rate p s nu =
      calculate_option_scenario_value risk_free_rate
        { p with implied_volatility := some 0.30, dte := some 30 } s nu := by
  constructor
  · simp [calculate_position_iv, Position.days_to_expiration, hopt, hiv,
      hdte]
  · simp [calculate_option_scenario_value, calculate_position_iv,
      Position.days_to_expiration, hopt, hiv, hdte]

/-- Witness for the C10 theorem at a concrete option position missing
both data. -/
theorem c10_missing_data_defaults_witness :
    calculate_position_iv c10Position { } 100 =
      calculate_position_iv
        { c10Position with
          implied_volatility := some 0.30
          dte := some 30 } { } 100 ∧
    calculate_option_scenario_value 0.05 c10Position { } none =
      calculate_option_scenario_value 0.05
        { c10Position with
          implied_volatility := some 0.30
          dte := some 30 } { } none :=
  c10_missing_data_defaults c10Position { } 0.05 100 none rfl rfl rfl

/-- C6 counterexample: at confidence 0 over P&L values 1 and 2, the
claimed clamped selection floor((1-0)*2) = 2 clamped into the index
range picks the last sorted element 2, but calculate_var falls back to
the first sorted element and returns 1. -/
theorem c6_var_at_confidence_zero :
    calculate_var c6Results 0 = some 1 ∧
    pySorted (c6Results.map (fun r => r.2.portfolio_pnl)) = [1, 2] ∧
    ((1 : ℝ) ≠ 2) := by
  have hs : pySorted [(1 : ℝ), 2] = [1, 2] := by
    simp [pySorted, List.insertionSort, List.orderedInsert]
  have hf : ⌊((1 : ℝ) - 0) * (2 : ℕ)⌋ = 2 := by
    rw [Int.floor_eq_iff]
    norm_num
  refine ⟨?_, ?_, by norm_num⟩
  · simp [calculate_var, c6Results, mkPnlResult, pyInt, pyGet, hs, hf]
  · simpa [c6Results, mkPnlResult] using hs

/-- C6 amended: for confidence in (0, 1], calculate_var returns 0 on an
empty result set and otherwise the ascending-sorted portfolio P&L entry
at index floor((1-confidence)*N), which on this confidence range already
lies in [0, N-1] without clamping; for confidence outside (0, 1] the
code instead falls back to the smallest P&L (index at or above N) or
indexes from the end of the list (negative index), not to the claimed
clamped selection. -/
theorem c6_var_selection (results : List (String × ScenarioResult))
    (confidence : ℝ) (h0 : 0 < confidence) (h1 : confidence ≤ 1) :
    calculate_var results confidence =
      if results.isEmpty then some 0
      else (pySorted (results.map fun r => r.2.portfolio_pnl)).get?
        (⌊(1 - confidence) * (results.length : ℝ)⌋).toNat := by
  by_cases hE : results.isEmpty = true
  · rw [List.isEmpty_iff] at hE
    subst hE
    simp [calculate_var]
    norm_num
  · rw [Bool.not_eq_true] at hE
    have hne : results ≠ [] := by
      intro h
      rw [h] at hE
      simp at hE
    have hlen : results.length ≠ 0 := by
      simpa [List.length_eq_zero] using hne
    have hN : (0 : ℝ) < (results.length : ℝ) := by
      exact_mod_cast Nat.pos_of_ne_zero hlen
    have hx0 : (0 : ℝ) ≤ (1 - confidence) * (results.length : ℝ) :=
      mul_nonneg (by linarith) (le_of_lt hN)
    have hfl0 : (0 : ℤ) ≤ ⌊(1 - confidence) * (results.length : ℝ)⌋ :=
      Int.floor_nonneg.mpr hx0
    have hxlt : (1 - confidence) * (results.length : ℝ) <
        (results.length : ℝ) := by
      have h := mul_lt_mul_of_pos_right
        (show (1 - confidence : ℝ) < 1 by linarith) hN
      simpa using h
    have hfllt : ⌊(1 - confidence) * (results.length : ℝ)⌋ <
        (results.length : ℤ) := by
      rw [Int.floor_lt]
      exact_mod_cast hxlt
    have hmap : (results.map fun r => r.2.portfolio_pnl).length =
        results.length := List.length_map _ _
    have hpE : (results.map fun r => r.2.portfolio_pnl).isEmpty = false := by
      cases results with
      | nil => exact absurd rfl hne
      | cons a t => rfl
    have hslen : (pySorted (results.map fun r => r.2.portfolio_pnl)).length
        = results.length := by
      rw [pySorted, List.length_insertionSort, hmap]
    have hidx : ⌊(1 - confidence) * (results.length : ℝ)⌋ <
        ((pySorted (results.map fun r => r.2.portfolio_pnl)).length : ℤ) := by
      rw [hslen]
      exact hfllt
    simp only [calculate_var, hpE, hmap, Bool.false_eq_true, if_false]
    rw [pyInt, if_pos hx0, if_pos hidx, pyGet]
    simp only [if_neg (not_lt.mpr hfl0)]
    rw [if_pos ⟨hfl0, hidx⟩]
    simp [hE]

/-- Witness for the amended C6 theorem at confidence one half over two
results. -/
theorem c6_var_selection_witness :
    (0 : ℝ) < 1 / 2 ∧ (1 / 2 : ℝ) ≤ 1 ∧
    calculate_var c6Results (1 / 2) =
      (if c6Results.isEmpty then some 0
       else (pySorted (c6Results.map fun r => r.2.portfolio_pnl)).get?
        (⌊(1 - (1 / 2 : ℝ)) * (c6Results.length : ℝ)⌋).toNat) :=
  ⟨by norm_num, by norm_num,
    c6_var_selection c6Results (1 / 2) (by norm_num) (by norm_num)⟩

/-- C2 counterexample: the zero scenario (spot_change 0, days_pass 0, no
volatility transform) is not value-preserving for option positions: a
single expired put held at premium 2 is repriced at intrinsic value
against its own premium used as the spot, yielding portfolio P&L 9600
rather than 0. -/
theorem c2_zero_scenario_not_idempotent_for_options :
    (run_scenario 0.05 [c2Option] zeroScenario).portfolio_pnl = 9600 ∧
    (9600 : ℝ) ≠ 0 := by
  refine ⟨?_, by norm_num⟩
  have hcv : (calculate_current_portfolio_value [c2Option]).total_value =
      200 := by
    rw [total_value_eq_sum]
    simp [c2Option, Position.position_value]
    norm_num
  have hup : underlying_prices zeroScenario [c2Option] "XYZ" = some 2 := by
    rw [← underlying_prices_def, buildUnderlying_lookup]
    simp [lastStockOn, firstOptionOn, List.filter_cons, c2Option,
      zeroScenario]
  have hval : calculate_option_scenario_value 0.05 c2Option zeroScenario
      (some 2) = 9800 := by
    rw [calculate_option_scenario_value]
    have ht : ((max 0 ((c2Option.days_to_expiration).getD 30 -
        zeroScenario.days_pass.getD 0) : ℤ) : ℝ) / 365.0 ≤ 0 := by
      simp [c2Option, zeroScenario, Position.days_to_expiration]
    simp only [Option.getD_some]
    rw [calculate_option_price, if_pos ht]
    simp [c2Option]
    norm_num
  rw [run_scenario, run_scenarioSt, run_scenarioWithSt_eq]
  dsimp only
  rw [hcv]
  have hrep : actualReprice 0.05 zeroScenario
      (underlying_prices zeroScenario [c2Option]) c2Option =
      Except.ok 9800 := by
    rw [actualReprice, if_pos (show c2Option.is_option = true from rfl)]
    rw [show c2Option.underlying = "XYZ" from rfl, hup, hval]
  simp [hrep]
  norm_num

/-- C2 amended: the zero scenario preserves values and yields zero
portfolio P&L for every portfolio of stock positions in which positions
sharing a symbol share a current price; option positions (see the
counterexample) are repriced through the model and need not keep their
value, because the engine uses each position's own current_price as the
underlying spot estimate. -/
theorem c2_zero_scenario_stock_identity (r : ℝ) (ps : List Position)
    (s : Scenario) (hstock : ∀ p ∈ ps, p.is_option = false)
    (hcons : ∀ p ∈ ps, ∀ q ∈ ps, p.symbol = q.symbol →
      p.current_price = q.current_price)
    (hsc : s.spot_change.getD 0.0 = 0)
    (_hdp : s.days_pass.getD 0 = 0) (_hivm : s.iv_multipliers = none)
    (_hds : s.dte_scaling = none) (_hivc : s.iv_change.getD 0.0 = 0) :
    (run_scenario r ps s).portfolio_pnl = 0 ∧
    ∀ e ∈ (run_scenario r ps s).position_results,
      e.scenario_value = e.current_value := by
  rw [run_scenario, run_scenarioSt, run_scenarioWithSt_eq]
  dsimp only
  constructor
  · rw [total_value_eq_sum]
    have hmap : ps.map (fun p =>
        match actualReprice r s (underlying_prices s ps) p with
        | Except.ok v => v
        | Except.error _ => p.position_value) =
        ps.map Position.position_value := by
      apply List.map_congr_left
      intro p hp
      rw [actualReprice_stock_identity r ps s p hp hstock hcons hsc]
    rw [hmap, sub_self]
  · intro e he
    obtain ⟨p, hp, hfe⟩ := List.mem_filterMap.mp he
    rw [actualReprice_stock_identity r ps s p hp hstock hcons hsc] at hfe
    have he2 : mkPositionResult p p.position_value = e :=
      Option.some_inj.mp hfe
    rw [← he2]
    simp [mkPositionResult]

/-- Witness for the amended C2 theorem: a single stock position under
the zero scenario. -/
theorem c2_zero_scenario_stock_identity_witness :
    (run_scenario 0.05 [c2Stock] zeroScenario).portfolio_pnl = 0 ∧
    ∀ e ∈ (run_scenario 0.05 [c2Stock] zeroScenario).position_results,
      e.scenario_value = e.current_value :=
  c2_zero_scenario_stock_identity 0.05 [c2Stock] zeroScenario
    (by intro p hp; rw [List.mem_singleton] at hp; subst hp; rfl)
    (by
      intro p hp q hq h
      rw [List.mem_singleton] at hp hq
      subst hp
      subst hq
      rfl)
    (by norm_num [zeroScenario]) (by norm_num [zeroScenario])
    rfl rfl (by norm_num [zeroScenario])

/-- filterMap collapses to map on a list where the function always
succeeds. -/
theorem filterMap_all_some {α β : Type} (f : α → Option β) (g : α → β)
    (l : List α) (h : ∀ a ∈ l, f a = some (g a)) :
    l.filterMap f = l.map g := by
  induction l with
  | nil => rfl
  | cons a t ih =>
    rw [List.filterMap_cons, h a (List.mem_cons_self a t),
      ih (fun b hb => h b (List.mem_cons_of_mem a hb)), List.map_cons]

/-- C3 counterexample: failing the repricing of exactly the middle one
of three stock positions yields a scenario result whose
position_results covers only the two surviving positions — the failing
position is absent from the per-position results, while its unchanged
current value of 20 still enters the scenario portfolio total of 60. -/
theorem c3_failing_position_not_covered :
    ((run_scenarioWith 0.05 (failingOn "B" 0.05 zeroScenario)
      [c3A, c3B, c3C] zeroScenario).position_results.map
        (fun e => e.symbol)) = ["A", "C"] ∧
    (run_scenarioWith 0.05 (failingOn "B" 0.05 zeroScenario)
      [c3A, c3B, c3C] zeroScenario).scenario_portfolio_value = 60 ∧
    ¬ ("B" ∈ ((run_scenarioWith 0.05 (failingOn "B" 0.05 zeroScenario)
      [c3A, c3B, c3C] zeroScenario).position_results.map
        (fun e => e.symbol))) := by
  have hupA : underlying_prices zeroScenario [c3A, c3B, c3C] "A" =
      some 10 := by
    rw [← underlying_prices_def, buildUnderlying_lookup]
    simp [lastStockOn, firstOptionOn, List.filter_cons, c3A, c3B, c3C,
      zeroScenario]
  have hupC : underlying_prices zeroScenario [c3A, c3B, c3C] "C" =
      some 30 := by
    rw [← underlying_prices_def, buildUnderlying_lookup]
    simp [lastStockOn, firstOptionOn, List.filter_cons, c3A, c3B, c3C,
      zeroScenario]
  have hvA : failingOn "B" 0.05 zeroScenario
      (underlying_prices zeroScenario [c3A, c3B, c3C]) c3A =
      Except.ok 10 := by
    rw [failingOn, if_neg (by simp [c3A]), actualReprice,
      if_neg (by simp [c3A]), calculate_stock_scenario_value,
      show c3A.symbol = "A" from rfl, hupA]
    simp [c3A]
  have hvB : failingOn "B" 0.05 zeroScenario
      (underlying_prices zeroScenario [c3A, c3B, c3C]) c3B =
      Except.error () := by
    rw [failingOn, if_pos (show c3B.symbol = "B" from rfl)]
  have hvC : failingOn "B" 0.05 zeroScenario
      (underlying_prices zeroScenario [c3A, c3B, c3C]) c3C =
      Except.ok 30 := by
    rw [failingOn, if_neg (by simp [c3C]), actualReprice,
      if_neg (by simp [c3C]), calculate_stock_scenario_value,
      show c3C.symbol = "C" from rfl, hupC]
    simp [c3C]
  rw [run_scenarioWith, run_scenarioWithSt_eq]
  dsimp only
  refine ⟨?_, ?_, ?_⟩
  · simp only [List.filterMap_cons, hvA, hvB, hvC, List.filterMap_nil]
    simp [mkPositionResult, c3A, c3C]
  · simp only [List.map_cons, List.map_nil, hvA, hvB, hvC]
    simp [c3B, Position.position_value, List.sum_cons, List.sum_nil]
    norm_num
  · simp only [List.filterMap_cons, hvA, hvB, hvC, List.filterMap_nil]
    simp [mkPositionResult, c3A, c3C]

/-- C3 amended: when repricing raises for exactly one position among
several, the scenario completes and returns a result covering every
position EXCEPT the failing one (which is omitted from
position_results); the failing position's unchanged current value is
still included in the scenario portfolio total, and the portfolio P&L
delta is computed from the successfully repriced positions only. -/
theorem c3_fail_open (r : ℝ) (s : Scenario)
    (reprice : PriceMap → Position → Except Unit ℝ) (w : Position → ℝ)
    (l1 l2 : List Position) (pf : Position)
    (hfail : reprice (underlying_prices s (l1 ++ pf :: l2)) pf =
      Except.error ())
    (hok : ∀ p ∈ l1 ++ l2, reprice (underlying_prices s (l1 ++ pf :: l2)) p
      = Except.ok (w p)) :
    (run_scenarioWith r reprice (l1 ++ pf :: l2) s).position_results =
      (l1.map (fun p => mkPositionResult p (w p))) ++
        (l2.map (fun p => mkPositionResult p (w p))) ∧
    (run_scenarioWith r reprice (l1 ++ pf :: l2) s).scenario_portfolio_value
      = ((l1.map w).sum + (l2.map w).sum) + pf.position_value ∧
    (run_scenarioWith r reprice (l1 ++ pf :: l2) s).portfolio_pnl =
      ((l1.map w).sum + (l2.map w).sum) -
        ((l1.map Position.position_value).sum +
          (l2.map Position.position_value).sum) := by
  have hok1 : ∀ p ∈ l1, reprice (underlying_prices s (l1 ++ pf :: l2)) p =
      Except.ok (w p) := fun p hp =>
    hok p (List.mem_append_left l2 hp)
  have hok2 : ∀ p ∈ l2, reprice (underlying_prices s (l1 ++ pf :: l2)) p =
      Except.ok (w p) := fun p hp =>
    hok p (List.mem_append_right l1 hp)
  rw [run_scenarioWith, run_scenarioWithSt_eq]
  dsimp only
  have hmap1 : ∀ (l : List Position),
      (∀ p ∈ l, reprice (underlying_prices s (l1 ++ pf :: l2)) p =
        Except.ok (w p)) →
      l.map (fun p =>
        match reprice (underlying_prices s (l1 ++ pf :: l2)) p with
        | Except.ok v => v
        | Except.error _ => p.position_value) = l.map w := by
    intro l hl
    apply List.map_congr_left
    intro p hp
    rw [hl p hp]
  have hfm1 : ∀ (l : List Position),
      (∀ p ∈ l, reprice (underlying_prices s (l1 ++ pf :: l2)) p =
        Except.ok (w p)) →
      l.filterMap (fun p =>
        match reprice (underlying_prices s (l1 ++ pf :: l2)) p with
        | Except.ok v => some (mkPositionResult p v)
        | Except.error _ => none) =
        l.map (fun p => mkPositionResult p (w p)) := by
    intro l hl
    apply filterMap_all_some
    intro p hp
    rw [hl p hp]
  refine ⟨?_, ?_, ?_⟩
  · rw [List.filterMap_append, List.filterMap_cons, hfail]
    rw [hfm1 l1 hok1, hfm1 l2 hok2]
  · rw [List.map_append, List.map_cons, hfail]
    rw [hmap1 l1 hok1, hmap1 l2 hok2, List.sum_append, List.sum_cons]
    ring
  · rw [List.map_append, List.map_cons, hfail]
    rw [hmap1 l1 hok1, hmap1 l2 hok2, List.sum_append, List.sum_cons,
      total_value_eq_sum, List.map_append, List.map_cons,
      List.sum_append, List.sum_cons]
    ring

/-- Witness for the amended C3 theorem: three stocks with the middle
one's repricing failed. -/
theorem c3_fail_open_witness :
    (run_scenarioWith 0.05 (failingOn "B" 0.05 zeroScenario)
      ([c3A] ++ c3B :: [c3C]) zeroScenario).position_results =
      ([c3A].map (fun p => mkPositionResult p p.position_value)) ++
        ([c3C].map (fun p => mkPositionResult p p.position_value)) ∧
    (run_scenarioWith 0.05 (failingOn "B" 0.05 zeroScenario)
      ([c3A] ++ c3B :: [c3C]) zeroScenario).scenario_portfolio_value =
      (([c3A].map Position.position_value).sum +
        ([c3C].map Position.position_value).sum) + c3B.position_value ∧
    (run_scenarioWith 0.05 (failingOn "B" 0.05 zeroScenario)
      ([c3A] ++ c3B :: [c3C]) zeroScenario).portfolio_pnl =
      (([c3A].map Position.position_value).sum +
        ([c3C].map Position.position_value).sum) -
        (([c3A].map Position.position_value).sum +
          ([c3C].map Position.position_value).sum) := by
  have hstock : ∀ q ∈ [c3A] ++ c3B :: [c3C], q.is_option = false := by
    intro q hq
    simp at hq
    rcases hq with rfl | rfl | rfl <;> rfl
  have hcons : ∀ q ∈ [c3A] ++ c3B :: [c3C], ∀ q2 ∈ [c3A] ++ c3B :: [c3C],
      q.symbol = q2.symbol → q.current_price = q2.current_price := by
    intro q hq q2 hq2 h
    simp at hq hq2
    rcases hq with rfl | rfl | rfl <;> rcases hq2 with rfl | rfl | rfl <;>
      first
        | rfl
        | (exfalso; revert h; simp [c3A, c3B, c3C])
  exact c3_fail_open 0.05 zeroScenario
    (failingOn "B" 0.05 zeroScenario) Position.position_value
    [c3A] [c3C] c3B
    (by rw [failingOn, if_pos (show c3B.symbol = "B" from rfl)])
    (by
      intro p hp
      simp at hp
      have hmem : p ∈ [c3A] ++ c3B :: [c3C] := by
        rcases hp with rfl | rfl <;> simp
      have hne : ¬ (p.symbol = "B") := by
        rcases hp with rfl | rfl <;> simp [c3A, c3C]
      rw [failingOn, if_neg hne]
      exact actualReprice_stock_identity 0.05 ([c3A] ++ c3B :: [c3C])
        zeroScenario p hmem hstock hcons (by norm_num [zeroScenario]))

/-- C9 counterexample: with an option on XYZ preceding an XYZ stock
position, the shocked spot used to reprice the option is 100 (the later
stock's price), not the option's own premium 5 shocked by the spot
change, and the option's scenario value is the intrinsic value against
spot 100 (2000), not against the premium-derived spot (11500). -/
theorem c9_spot_from_later_stock :
    underlying_prices zeroScenario [c9Option, c9Stock] "XYZ" = some 100 ∧
    ((run_scenario 0.05 [c9Option, c9Stock] zeroScenario).position_results.map
      (fun e => e.scenario_value)) = [2000, 100] ∧
    ((100 : ℝ) ≠ 5 * (1 + 0)) ∧
    ((2000 : ℝ) ≠ (max 0 (120 - 5 * (1 + 0))) * 1 * 100) := by
  have hup : underlying_prices zeroScenario [c9Option, c9Stock] "XYZ" =
      some 100 := by
    rw [← underlying_prices_def, buildUnderlying_lookup]
    simp [lastStockOn, firstOptionOn, List.filter_cons, c9Option, c9Stock,
      zeroScenario]
  have hval : calculate_option_scenario_value 0.05 c9Option zeroScenario
      (some 100) = 2000 := by
    rw [calculate_option_scenario_value]
    have ht : ((max 0 ((c9Option.days_to_expiration).getD 30 -
        zeroScenario.days_pass.getD 0) : ℤ) : ℝ) / 365.0 ≤ 0 := by
      simp [c9Option, zeroScenario, Position.days_to_expiration]
    simp only [Option.getD_some]
    rw [calculate_option_price, if_pos ht]
    simp [c9Option]
    norm_num
  have hvO : actualReprice 0.05 zeroScenario
      (underlying_prices zeroScenario [c9Option, c9Stock]) c9Option =
      Except.ok 2000 := by
    rw [actualReprice, if_pos (show c9Option.is_option = true from rfl),
      show c9Option.underlying = "XYZ" from rfl, hup, hval]
  have hvS : actualReprice 0.05 zeroScenario
      (underlying_prices zeroScenario [c9Option, c9Stock]) c9Stock =
      Except.ok 100 := by
    rw [actualReprice, if_neg (by simp [c9Stock]),
      calculate_stock_scenario_value,
      show c9Stock.symbol = "XYZ" from rfl, hup]
    simp [c9Stock]
  refine ⟨hup, ?_, by norm_num, by norm_num⟩
  rw [run_scenario, run_scenarioSt, run_scenarioWithSt_eq]
  dsimp only
  simp only [List.filterMap_cons, hvO, hvS, List.filterMap_nil]
  simp [mkPositionResult]

/-- C9 amended: the shocked spot run_scenario associates to a symbol is
the spot-shocked current_price of the LAST stock position bearing that
symbol when any exists (stocks overwrite the entry unconditionally,
wherever they appear in the list); only when no stock position bears the
symbol anywhere in the list is it the spot-shocked premium of the first
option position on that underlying. -/
theorem c9_shocked_spot_source (s : Scenario) (ps : List Position)
    (u : String) :
    underlying_prices s ps u =
      match lastStockOn u ps with
      | some q => some (q.current_price * (1 + s.spot_change.getD 0.0))
      | none => (firstOptionOn u ps).map
          (fun q => q.current_price * (1 + s.spot_change.getD 0.0)) := by
  rw [← underlying_prices_def, buildUnderlying_lookup]

/-- The head of an ordered insertion: the inserted element wins exactly
when it compares at or below the previous head. -/
theorem head?_orderedInsert (a : PositionResult)
    (s : List PositionResult) :
    (List.orderedInsert pnlLe a s).head? = some (match s.head? with
      | none => a
      | some b => if pnlLe a b then a else b) := by
  cases s with
  | nil => rfl
  | cons b t =>
    rw [List.orderedInsert]
    by_cases h : pnlLe a b
    · rw [if_pos h]
      simp [h]
    · rw [if_neg h]
      simp [h]

/-- The head of the stable insertion sort is the first entry of minimal
P&L. -/
theorem head?_insertionSort_pnl (l : List PositionResult) :
    (List.insertionSort pnlLe l).head? = firstMinByPnl l := by
  induction l with
  | nil => rfl
  | cons a t ih =>
    rw [List.insertionSort, head?_orderedInsert, ih, firstMinByPnl]
    cases hm : firstMinByPnl t with
    | none => rfl
    | some b =>
      dsimp only
      by_cases h : pnlLe a b
      · rw [if_pos h, if_pos h]
      · rw [if_neg h, if_neg h]

/-- In a sorted list the head is below the last element. -/
theorem sorted_head_pnl_le_getLast (b : PositionResult)
    (t : List PositionResult) (hs : List.Sorted pnlLe (b :: t))
    (y : PositionResult) (hy : (b :: t).getLast? = some y) : pnlLe b y := by
  have hmem : y ∈ b :: t := by
    rw [List.getLast?_eq_getLast_of_ne_nil (List.cons_ne_nil b t)] at hy
    rw [← Option.some_inj.mp hy]
    exact List.getLast_mem _
  rcases List.mem_cons.mp hmem with h | h
  · rw [h]
    exact le_rfl
  · exact List.rel_of_sorted_cons hs y h

/-- The last element of an ordered insertion into a sorted list: the
inserted element wins exactly when it compares strictly above the
previous last element. -/
theorem getLast?_orderedInsert (a : PositionResult) :
    ∀ (s : List PositionResult), List.Sorted pnlLe s →
    (List.orderedInsert pnlLe a s).getLast? = some (match s.getLast? with
      | none => a
      | some y => if a.pnl ≤ y.pnl then y else a)
  | [], _ => rfl
  | b :: t, hs => by
    rw [List.orderedInsert]
    by_cases h : pnlLe a b
    · rw [if_pos h, List.getLast?_cons_cons]
      obtain ⟨y, hy⟩ : ∃ y, (b :: t).getLast? = some y := by
        rw [List.getLast?_eq_getLast_of_ne_nil (List.cons_ne_nil b t)]
        exact ⟨_, rfl⟩
      have hby : pnlLe b y := sorted_head_pnl_le_getLast b t hs y hy
      have hay : a.pnl ≤ y.pnl := le_trans h hby
      rw [hy]
      dsimp only
      rw [if_pos hay]
    · rw [if_neg h]
      cases t with
      | nil =>
        have hna : ¬ (a.pnl ≤ b.pnl) := h
        simp only [List.getLast?_singleton]
        rw [if_neg hna]
        rfl
      | cons c t2 =>
        rw [getLast?_cons_getD,
          getLast?_orderedInsert a (c :: t2) hs.of_cons,
          List.getLast?_cons_cons]
        obtain ⟨y, hy⟩ : ∃ y, (c :: t2).getLast? = some y := by
          rw [List.getLast?_eq_getLast_of_ne_nil (List.cons_ne_nil c t2)]
          exact ⟨_, rfl⟩
        rw [hy]
        rfl

/-- The last element of the stable insertion sort is the last entry of
maximal P&L. -/
theorem getLast?_insertionSort_pnl (l : List PositionResult) :
    (List.insertionSort pnlLe l).getLast? = lastMaxByPnl l := by
  induction l with
  | nil => rfl
  | cons a t ih =>
    rw [List.insertionSort,
      getLast?_orderedInsert a _ (List.sorted_insertionSort pnlLe t), ih,
      lastMaxByPnl]
    cases hm : lastMaxByPnl t with
    | none => rfl
    | some b =>
      dsimp only
      by_cases h : a.pnl ≤ b.pnl
      · rw [if_pos h, if_neg (not_lt.mpr h)]
      · rw [if_neg h, if_pos (not_le.mp h)]

/-- firstMinByPnl of a nonempty list exists. -/
theorem firstMinByPnl_cons_isSome (a : PositionResult)
    (t : List PositionResult) :
    ∃ w, firstMinByPnl (a :: t) = some w := by
  rw [firstMinByPnl]
  cases h : firstMinByPnl t with
  | none => exact ⟨a, rfl⟩
  | some b =>
    dsimp only
    by_cases hc : pnlLe a b
    · exact ⟨a, by rw [if_pos hc]⟩
    · exact ⟨b, by rw [if_neg hc]⟩

/-- lastMaxByPnl of a nonempty list exists. -/
theorem lastMaxByPnl_cons_isSome (a : PositionResult)
    (t : List PositionResult) :
    ∃ w, lastMaxByPnl (a :: t) = some w := by
  rw [lastMaxByPnl]
  cases h : lastMaxByPnl t with
  | none => exact ⟨a, rfl⟩
  | some b =>
    dsimp only
    by_cases hc : b.pnl < a.pnl
    · exact ⟨a, by rw [if_pos hc]⟩
    · exact ⟨b, by rw [if_neg hc]⟩

/-- firstMinByPnl returns the first occurrence of the minimal P&L: it
splits the list with strictly greater entries before it and no smaller
entry anywhere. -/
theorem firstMinByPnl_spec :
    ∀ (l : List PositionResult) (w : PositionResult),
    firstMinByPnl l = some w →
    ∃ l1 l2, l = l1 ++ w :: l2 ∧ (∀ x ∈ l1, w.pnl < x.pnl) ∧
      (∀ x ∈ l, w.pnl ≤ x.pnl)
  | [], w => by intro h; exact absurd h (by rw [firstMinByPnl]; simp)
  | a :: t, w => by
    intro h
    rw [firstMinByPnl] at h
    cases hm : firstMinByPnl t with
    | none =>
      rw [hm] at h
      have hw : a = w := Option.some_inj.mp h
      have ht : t = [] := by
        cases t with
        | nil => rfl
        | cons c t2 =>
          obtain ⟨w2, hw2⟩ := firstMinByPnl_cons_isSome c t2
          rw [hw2] at hm
          exact absurd hm (by simp)
      subst ht
      subst hw
      exact ⟨[], [], rfl, by simp, by simp⟩
    | some b =>
      rw [hm] at h
      dsimp only at h
      obtain ⟨l1, l2, hdec, hstrict, hmin⟩ := firstMinByPnl_spec t b hm
      by_cases hc : pnlLe a b
      · rw [if_pos hc] at h
        have hw : a = w := Option.some_inj.mp h
        subst hw
        refine ⟨[], t, rfl, by simp, ?_⟩
        intro x hx
        rcases List.mem_cons.mp hx with h2 | h2
        · rw [h2]
        · exact le_trans hc (hmin x h2)
      · rw [if_neg hc] at h
        have hw : b = w := Option.some_inj.mp h
        subst hw
        refine ⟨a :: l1, l2, by rw [hdec, List.cons_append], ?_, ?_⟩
        · intro x hx
          rcases List.mem_cons.mp hx with h2 | h2
          · rw [h2]
            exact not_le.mp hc
          · exact hstrict x h2
        · intro x hx
          rcases List.mem_cons.mp hx with h2 | h2
          · rw [h2]
            exact le_of_lt (not_le.mp hc)
          · exact hmin x h2

/-- lastMaxByPnl returns the last occurrence of the maximal P&L: it
splits the list with strictly smaller entries after it and no greater
entry anywhere. -/
theorem lastMaxByPnl_spec :
    ∀ (l : List PositionResult) (b : PositionResult),
    lastMaxByPnl l = some b →
    ∃ l3 l4, l = l3 ++ b :: l4 ∧ (∀ x ∈ l4, x.pnl < b.pnl) ∧
      (∀ x ∈ l, x.pnl ≤ b.pnl)
  | [], b => by intro h; exact absurd h (by rw [lastMaxByPnl]; simp)
  | a :: t, b => by
    intro h
    rw [lastMaxByPnl] at h
    cases hm : lastMaxByPnl t with
    | none =>
      rw [hm] at h
      have hw : a = b := Option.some_inj.mp h
      have ht : t = [] := by
        cases t with
        | nil => rfl
        | cons c t2 =>
          obtain ⟨w2, hw2⟩ := lastMaxByPnl_cons_isSome c t2
          rw [hw2] at hm
          exact absurd hm (by simp)
      subst ht
      subst hw
      exact ⟨[], [], rfl, by simp, by simp⟩
    | some c =>
      rw [hm] at h
      dsimp only at h
      obtain ⟨l3, l4, hdec, hstrict, hmax⟩ := lastMaxByPnl_spec t c hm
      by_cases hc : c.pnl < a.pnl
      · rw [if_pos hc] at h
        have hw : a = b := Option.some_inj.mp h
        subst hw
        refine ⟨[], t, rfl, ?_, ?_⟩
        · intro x hx
          exact lt_of_le_of_lt (hmax x hx) hc
        · intro x hx
          rcases List.mem_cons.mp hx with h2 | h2
          · rw [h2]
          · exact le_of_lt (lt_of_le_of_lt (hmax x h2) hc)
      · rw [if_neg hc] at h
        have hw : c = b := Option.some_inj.mp h
        subst hw
        refine ⟨a :: l3, l4, by rw [hdec, List.cons_append], hstrict, ?_⟩
        intro x hx
        rcases List.mem_cons.mp hx with h2 | h2
        · rw [h2]
          exact not_lt.mp hc
        · exact hmax x h2

/-- C7 counterexample: two stock positions with tied scenario P&L 0; the
best position reported by run_scenario is the SECOND one ("B"), because
Python's stable sort leaves tied entries in input order and the code
takes the LAST element of the sorted list as best — the first occurrence
does not win. -/
theorem c7_best_tie_goes_to_last :
    ((run_scenario 0.05 [c7A, c7B] zeroScenario).best_position.map
      (fun e => e.symbol)) = some "B" ∧
    ((run_scenario 0.05 [c7A, c7B] zeroScenario).position_results.map
      (fun e => (e.symbol, e.pnl))) = [("A", 0), ("B", 0)] ∧
    ("B" ≠ "A") := by
  have hupA : underlying_prices zeroScenario [c7A, c7B] "A" = some 10 := by
    rw [← underlying_prices_def, buildUnderlying_lookup]
    simp [lastStockOn, firstOptionOn, List.filter_cons, c7A, c7B,
      zeroScenario]
  have hupB : underlying_prices zeroScenario [c7A, c7B] "B" = some 10 := by
    rw [← underlying_prices_def, buildUnderlying_lookup]
    simp [lastStockOn, firstOptionOn, List.filter_cons, c7A, c7B,
      zeroScenario]
  have hvA : actualReprice 0.05 zeroScenario
      (underlying_prices zeroScenario [c7A, c7B]) c7A = Except.ok 10 := by
    rw [actualReprice, if_neg (by simp [c7A]),
      calculate_stock_scenario_value, show c7A.symbol = "A" from rfl, hupA]
    simp [c7A]
  have hvB : actualReprice 0.05 zeroScenario
      (underlying_prices zeroScenario [c7A, c7B]) c7B = Except.ok 10 := by
    rw [actualReprice, if_neg (by simp [c7B]),
      calculate_stock_scenario_value, show c7B.symbol = "B" from rfl, hupB]
    simp [c7B]
  have hord : ¬ ((mkPositionResult c7B 10).pnl <
      (mkPositionResult c7A 10).pnl) := by
    simp [mkPositionResult, c7A, c7B, Position.position_value]
  rw [run_scenario, run_scenarioSt, run_scenarioWithSt_eq]
  dsimp only
  simp only [List.filterMap_cons, hvA, hvB, List.filterMap_nil]
  refine ⟨?_, ?_, by simp⟩
  · rw [getLast?_insertionSort_pnl, lastMaxByPnl, lastMaxByPnl,
      lastMaxByPnl]
    dsimp only
    rw [if_neg hord]
    simp [mkPositionResult, c7B]
  · simp [mkPositionResult, c7A, c7B, Position.position_value]

/-- C7 amended: in every runScenario result over a non-empty position
list, the worst position is the minimum by signed P&L with ties broken
by FIRST occurrence in input order, and the best position is the maximum
by signed P&L with ties broken by LAST occurrence in input order (the
code takes the last element of a stable ascending sort). -/
theorem c7_best_worst_selection (r : ℝ) (ps : List Position) (s : Scenario)
    (hne : ps ≠ []) :
    ∃ w b, (run_scenario r ps s).worst_position = some w ∧
      (run_scenario r ps s).best_position = some b ∧
      (∃ l1 l2, (run_scenario r ps s).position_results = l1 ++ w :: l2 ∧
        ∀ x ∈ l1, w.pnl < x.pnl) ∧
      (∀ x ∈ (run_scenario r ps s).position_results, w.pnl ≤ x.pnl) ∧
      (∃ l3 l4, (run_scenario r ps s).position_results = l3 ++ b :: l4 ∧
        ∀ x ∈ l4, x.pnl < b.pnl) ∧
      (∀ x ∈ (run_scenario r ps s).position_results, x.pnl ≤ b.pnl) := by
  obtain ⟨p, t, rfl⟩ := List.exists_cons_of_ne_nil hne
  rw [run_scenario, run_scenarioSt, run_scenarioWithSt_eq]
  dsimp only
  have hfm : (p :: t).filterMap (fun q =>
      match actualReprice r s (underlying_prices s (p :: t)) q with
      | Except.ok v => some (mkPositionResult q v)
      | Except.error _ => none) =
      (p :: t).map (fun q => mkPositionResult q
        (if q.is_option then calculate_option_scenario_value r q s
            (underlying_prices s (p :: t) q.underlying)
          else calculate_stock_scenario_value q s
            (underlying_prices s (p :: t) q.symbol))) :=
    filterMap_all_some _ _ _ (fun a _ => rfl)
  rw [hfm, List.map_cons]
  obtain ⟨w, hw⟩ := firstMinByPnl_cons_isSome _ _
  obtain ⟨b, hb⟩ := lastMaxByPnl_cons_isSome _ _
  obtain ⟨l1, l2, hdec1, hstrict1, hmin1⟩ := firstMinByPnl_spec _ w hw
  obtain ⟨l3, l4, hdec2, hstrict2, hmax2⟩ := lastMaxByPnl_spec _ b hb
  refine ⟨w, b, ?_, ?_, ⟨l1, l2, hdec1, hstrict1⟩, hmin1,
    ⟨l3, l4, hdec2, hstrict2⟩, hmax2⟩
  · rw [head?_insertionSort_pnl]
    exact hw
  · rw [getLast?_insertionSort_pnl]
    exact hb

/-- Witness for the amended C7 theorem over the two tying stock
positions. -/
theorem c7_best_worst_selection_witness :
    ∃ w b, (run_scenario 0.05 [c7A, c7B] zeroScenario).worst_position =
        some w ∧
      (run_scenario 0.05 [c7A, c7B] zeroScenario).best_position = some b ∧
      (∃ l1 l2, (run_scenario 0.05 [c7A, c7B]
          zeroScenario).position_results = l1 ++ w :: l2 ∧
        ∀ x ∈ l1, w.pnl < x.pnl) ∧
      (∀ x ∈ (run_scenario 0.05 [c7A, c7B]
        zeroScenario).position_results, w.pnl ≤ x.pnl) ∧
      (∃ l3 l4, (run_scenario 0.05 [c7A, c7B]
          zeroScenario).position_results = l3 ++ b :: l4 ∧
        ∀ x ∈ l4, x.pnl < b.pnl) ∧
      (∀ x ∈ (run_scenario 0.05 [c7A, c7B]
        zeroScenario).position_results, x.pnl ≤ b.pnl) :=
  c7_best_worst_selection 0.05 [c7A, c7B] zeroScenario
    (List.cons_ne_nil c7A [c7B])

/-- The scenario batch threads every position back unchanged. -/
theorem run_multiple_scenariosSt_snd (r : ℝ)
    (scs : List (String × Scenario)) :
    ∀ ps : List Position, (run_multiple_scenariosSt r ps scs).2 = ps := by
  induction scs with
  | nil => intro ps; rfl
  | cons hd rest ih =>
    intro ps
    obtain ⟨n, s⟩ := hd
    rw [run_multiple_scenariosSt, run_scenarioSt, run_scenarioWithSt_eq]
    dsimp only
    rcases hres : run_multiple_scenariosSt r ps rest with ⟨acc, ps2⟩
    have h2 := ih ps
    rw [hres] at h2
    exact h2

/-- C8 confirmed: calculate_current_portfolio_value, run_scenario and
run_multiple_scenarios hand every caller-supplied position back exactly
as given — in the state-threaded embedding, where each loop iteration
returns the position object it visited, the final position list is the
input list, with every field of every position unchanged. -/
theorem c8_positions_never_mutated (r : ℝ) (ps : List Position)
    (s : Scenario) (scs : List (String × Scenario)) :
    (calculate_current_portfolio_valueSt ps).2 = ps ∧
    (run_scenarioSt r ps s).2 = ps ∧
    (run_multiple_scenariosSt r ps scs).2 = ps := by
  refine ⟨?_, ?_, run_multiple_scenariosSt_snd r scs ps⟩
  · rw [calcMetricsSt_eq]
  · rw [run_scenarioSt, run_scenarioWithSt_eq]

/-- The Gaussian density is integrable on the line. -/
theorem gauss_integrable :
    MeasureTheory.Integrable (fun t : ℝ => Real.exp (-(t ^ 2) / 2)) := by
  have h : (fun t : ℝ => Real.exp (-(t ^ 2) / 2)) =
      (fun t : ℝ => Real.exp (-(2⁻¹ : ℝ) * t ^ 2)) := by
    funext t
    ring_nf
  rw [h]
  exact integrable_exp_neg_mul_sq (by norm_num)

/-- The Gaussian density is continuous. -/
theorem gauss_continuous :
    Continuous (fun t : ℝ => Real.exp (-(t ^ 2) / 2)) :=
  Real.continuous_exp.comp (((continuous_pow 2).neg).div_const 2)

/-- Difference of normal CDF values as an interval integral of the
density. -/
theorem normCdf_sub (a b : ℝ) :
    normCdf b - normCdf a = (Real.sqrt (2 * Real.pi))⁻¹ *
      ∫ x in a..b, Real.exp (-(x ^ 2) / 2) := by
  rw [normCdf, normCdf, ← mul_sub]
  congr 1
  exact intervalIntegral.integral_Iic_sub_Iic
    gauss_integrable.integrableOn gauss_integrable.integrableOn

/-- The Gaussian density integrates to a positive value over any
nondegenerate interval. -/
theorem gauss_pos_int (a b : ℝ) (hab : a < b) :
    0 < ∫ x in a..b, Real.exp (-(x ^ 2) / 2) :=
  intervalIntegral.intervalIntegral_pos_of_pos_on
    (gauss_continuous.intervalIntegrable a b)
    (fun _ _ => Real.exp_pos _) hab

/-- The normal CDF is strictly increasing. -/
theorem normCdf_strict (a b : ℝ) (hab : a < b) : normCdf a < normCdf b := by
  have h := normCdf_sub a b
  have hc : (0 : ℝ) < (Real.sqrt (2 * Real.pi))⁻¹ := by
    apply inv_pos.mpr
    apply Real.sqrt_pos.mpr
    positivity
  nlinarith [gauss_pos_int a b hab, mul_pos hc (gauss_pos_int a b hab)]

/-- The batch entry at the claim's divergent input: spot 100, strike
100, one year to expiry, volatility 0, call, zero rates — the batch path
floors the volatility at 0.01. -/
theorem batch_entry_at_zero_vol :
    batch_entry 0 100 100 1 0 "C" 0 =
      max 0 (100 * normCdf 0.005 - 100 * normCdf (-0.005)) := by
  rw [batch_entry]
  norm_num [Real.log_one, Real.sqrt_one, Real.exp_zero]

/-- The scalar price at the same input: the scalar path replaces the
non-positive volatility by 0.30. -/
theorem scalar_price_at_zero_vol :
    calculate_option_price 0 100 100 1 0 "C" 0 =
      max 0 (100 * normCdf 0.15 - 100 * normCdf (-0.15)) := by
  rw [calculate_option_price]
  norm_num [Real.log_one, Real.sqrt_one, Real.exp_zero]

/-- C4 counterexample: on the same parameters — spot 100, strike 100,
expiry 1, volatility 0, call, zero dividend, zero rate — the vectorized
batch does not equal the repeated scalar price: the batch floors the
volatility at 0.01 while the scalar replaces a non-positive volatility
by 0.30, and the Black-Scholes value is strictly increasing in
volatility at this input. -/
theorem c4_batch_ne_repeated_scalar :
    calculate_batch 0 [100] [100] [1] [0] ["C"] [0] ≠
      repeated_scalar_price 0 [100] [100] [1] [0] ["C"] [0] := by
  have hbatch : calculate_batch 0 [100] [100] [1] [0] ["C"] [0] =
      [batch_entry 0 100 100 1 0 "C" 0] := rfl
  have hscal : repeated_scalar_price 0 [100] [100] [1] [0] ["C"] [0] =
      [calculate_option_price 0 100 100 1 0 "C" 0] := rfl
  rw [hbatch, hscal]
  intro h
  have h2 : batch_entry 0 100 100 1 0 "C" 0 =
      calculate_option_price 0 100 100 1 0 "C" 0 := by
    simpa using h
  rw [batch_entry_at_zero_vol, scalar_price_at_zero_vol] at h2
  have h1 := normCdf_strict (-0.15) (-0.005) (by norm_num)
  have hmid := normCdf_strict (-0.005) 0.005 (by norm_num)
  have h3 := normCdf_strict 0.005 0.15 (by norm_num)
  have hB : (0 : ℝ) ≤ 100 * normCdf 0.005 - 100 * normCdf (-0.005) := by
    linarith
  have hA : (0 : ℝ) ≤ 100 * normCdf 0.15 - 100 * normCdf (-0.15) := by
    linarith
  rw [max_eq_right hB, max_eq_right hA] at h2
  linarith

/-- One batch entry agrees with the scalar price whenever the input
volatility is at least the batch floor 0.01 and the expiry is not in
the batch-clamped sliver (0, 1e-10). -/
theorem batch_entry_eq_scalar (r S K T v : ℝ) (ty : String) (q : ℝ)
    (hv : (0.01 : ℝ) ≤ v) (hT : T ≤ 0 ∨ (1e-10 : ℝ) ≤ T) :
    batch_entry r S K T v ty q = calculate_option_price r S K T v ty q := by
  rcases hT with hT | hT
  · rw [calculate_option_price, if_pos hT, batch_entry]
    rw [if_pos hT]
    by_cases hty : ty = "C"
    · rw [if_pos hty, ← max_assoc, max_self]
    · rw [if_neg hty, ← max_assoc, max_self]
  · have hT0 : ¬ (T ≤ 0) := by
      intro h
      nlinarith
    have hv0 : ¬ (v ≤ 0) := by
      intro h
      nlinarith
    have hmaxT : max T (1e-10 : ℝ) = T := max_eq_left hT
    have hmaxv : max v (0.01 : ℝ) = v := max_eq_left hv
    rw [calculate_option_price, if_neg hT0, batch_entry]
    rw [hmaxT, hmaxv, if_neg hT0, if_neg hv0]

/-- C4 amended: the vectorized calculate_batch equals elementwise
repeated scalar calculate_option_price calls on the same parameters
whenever every volatility entry is at least the 0.01 batch floor and
every expiry entry is either non-positive or at least the 1e-10 batch
clamp; entries with non-positive expiry are intrinsic value on both
paths. Below the 0.01 volatility floor the two paths diverge (the
scalar path keeps a small positive volatility and replaces a
non-positive one by 0.30, while the batch floors at 0.01). -/
theorem c4_batch_equals_scalar_on_safe_inputs (r : ℝ)
    (spots strikes times vols : List ℝ) (tys : List String) (qs : List ℝ)
    (hv : ∀ v ∈ vols, (0.01 : ℝ) ≤ v)
    (ht : ∀ T ∈ times, T ≤ 0 ∨ (1e-10 : ℝ) ≤ T) :
    calculate_batch r spots strikes times vols tys qs =
      repeated_scalar_price r spots strikes times vols tys qs := by
  induction spots generalizing strikes times vols tys qs with
  | nil => rfl
  | cons S Ss ih =>
    cases strikes with
    | nil => rfl
    | cons K Ks =>
      cases times with
      | nil => rfl
      | cons T Ts =>
        cases vols with
        | nil => rfl
        | cons v vs =>
          cases tys with
          | nil => rfl
          | cons ty tys2 =>
            cases qs with
            | nil => rfl
            | cons q qs2 =>
              rw [calculate_batch, repeated_scalar_price,
                batch_entry_eq_scalar r S K T v ty q
                  (hv v (List.mem_cons_self v vs))
                  (ht T (List.mem_cons_self T Ts)),
                ih Ks Ts vs tys2 qs2
                  (fun x hx => hv x (List.mem_cons_of_mem v hx))
                  (fun x hx => ht x (List.mem_cons_of_mem T hx))]

/-- Witness for the amended C4 theorem at a one-entry batch with
volatility 0.5 and expiry 1. -/
theorem c4_batch_equals_scalar_witness :
    calculate_batch 0 [100] [100] [1] [0.5] ["C"] [0] =
      repeated_scalar_price 0 [100] [100] [1] [0.5] ["C"] [0] :=
  c4_batch_equals_scalar_on_safe_inputs 0 [100] [100] [1] [0.5] ["C"] [0]
    (by
      intro v hv2
      rw [List.mem_singleton] at hv2
      subst hv2
      norm_num)
    (by
      intro T hT2
      rw [List.mem_singleton] at hT2
      subst hT2
      right
      norm_num)

end PortfolioImpact
